import Mathlib

/-!
# SessionScribe — verification of the session-tracking model

Shallow embedding of `src/session_scribe.py`. The program keeps

* an in-memory nested counter `message_counters : guild_id → user_id → channel_id → count`,
  modelled here as an association list keyed by the pair `(guild_id, user_id)`
  (the per-guild inner `defaultdict` layer is flattened: an entry for user `u`
  under guild `g` in Python corresponds to a key `(g, u)` here; the auto-created
  empty per-guild dict is unobservable at this granularity);
* a persistent `sessions` table in an external store, modelled as a list of
  `SessionRow` in insertion order.  Timestamps (ISO-8601 strings produced from a
  monotone clock in the source) are abstracted to `Nat`; `str(channel_id)` is
  `Nat.repr`.

The event handlers `on_member_join`, `on_message`, `on_member_remove`, the
per-member body of the `on_ready` bootstrap loop, and the two moderator
commands `stats` and `active` are translated function by function.
-/

namespace SessionScribe

/-- One row of the `sessions` table.  `leave_time = none` means the session is
open; `channel_counts` is only populated when the row is closed (the column is
NULL while the session is open). -/
structure SessionRow where
  guild_id : Nat
  user_id : Nat
  join_time : Nat
  leave_time : Option Nat
  channel_counts : Option (List (String × Nat))
deriving DecidableEq, Repr

/-- Per-open-session tally: association list `channel_id → count`. -/
abbrev ChanCounts := List (Nat × Nat)

/-- The in-memory `message_counters` structure, flattened to keys
`(guild_id, user_id)`. -/
abbrev Counters := List ((Nat × Nat) × ChanCounts)

/-- The whole program state: in-memory counters plus the session store. -/
structure BotState where
  counters : Counters
  sessions : List SessionRow
deriving DecidableEq, Repr

/-- Association-list lookup for the counter map
(`u in message_counters[g]` / `message_counters[g][u]`). -/
def lookupC (k : Nat × Nat) : Counters → Option ChanCounts
  | [] => none
  | (k', v) :: rest => if k' = k then some v else lookupC k rest

/-- Set a key to a value (`message_counters[g][u] = …`; in the source the only
writes are `.clear()` on a defaultdict entry, i.e. set-to-empty, and in-place
increment). Replaces the first occurrence, appends when absent. -/
def setC (k : Nat × Nat) (v : ChanCounts) : Counters → Counters
  | [] => [(k, v)]
  | (k', v') :: rest => if k' = k then (k, v) :: rest else (k', v') :: setC k v rest

/-- Remove a key (`message_counters[g].pop(u, {})`). -/
def eraseC (k : Nat × Nat) : Counters → Counters
  | [] => []
  | (k', v') :: rest => if k' = k then rest else (k', v') :: eraseC k rest

/-- `counts[c] += 1` on a defaultdict(int): bump the existing entry or create
it at 1. -/
def incr (c : Nat) : ChanCounts → ChanCounts
  | [] => [(c, 1)]
  | (c', n) :: rest => if c' = c then (c', n + 1) :: rest else (c', n) :: incr c rest

/-- Lookup in a string-keyed association list (the persisted JSON object
`channel_counts`). -/
def lookupS (k : String) : List (String × Nat) → Option Nat
  | [] => none
  | (k', v) :: rest => if k' = k then some v else lookupS k rest

/-- The filter `eq guild_id ∧ eq user_id ∧ leave_time IS NULL` used by the
bootstrap check, the leave-update and the `active` select. -/
def isOpenFor (g u : Nat) (r : SessionRow) : Bool :=
  r.guild_id == g && r.user_id == u && r.leave_time == none

/-- Number of open rows for a `(guild, user)` pair. -/
def countOpen (g u : Nat) (rows : List SessionRow) : Nat :=
  rows.countP (isOpenFor g u)

/-- Whether the bootstrap check `select … is_("leave_time", None)` returns any
row. -/
def hasOpen (g u : Nat) (rows : List SessionRow) : Bool :=
  rows.any (isOpenFor g u)

/-- Index (and `join_time`) of the row targeted by the leave-update:
the open row for `(g, u)` with maximal `join_time`
(`order("join_time", desc=True).limit(1)`); `none` when no open row matches,
in which case the update affects zero rows. -/
def bestOpenIdx (g u : Nat) : List SessionRow → Option (Nat × Nat)
  | [] => none
  | r :: rs =>
    match bestOpenIdx g u rs, isOpenFor g u r with
    | none, false => none
    | some (j, t), false => some (j + 1, t)
    | none, true => some (0, r.join_time)
    | some (j, t), true =>
      if r.join_time < t then some (j + 1, t) else some (0, r.join_time)

/-- Apply the leave-update patch `{leave_time: t, channel_counts: cc}` to the
row at index `i`. -/
def closeAt (t : Nat) (cc : List (String × Nat)) : Nat → List SessionRow → List SessionRow
  | _, [] => []
  | 0, r :: rs => { r with leave_time := some t, channel_counts := some cc } :: rs
  | i + 1, r :: rs => r :: closeAt t cc i rs

/-- `on_member_join`: clear the member's counter entry (defaultdict access
creates it empty if absent), then insert a fresh open row with
`join_time = t`. -/
def on_member_join (g u t : Nat) (s : BotState) : BotState :=
  { counters := setC (g, u) [] s.counters,
    sessions := s.sessions ++ [⟨g, u, t, none, none⟩] }

/-- The per-member body of the bootstrap loop in `on_ready`: clear the counter
entry, then insert an open row with `join_time = t` only when the store has no
open session for `(g, u)`. -/
def bootstrap_member (g u t : Nat) (s : BotState) : BotState :=
  { counters := setC (g, u) [] s.counters,
    sessions :=
      if hasOpen g u s.sessions then s.sessions
      else s.sessions ++ [⟨g, u, t, none, none⟩] }

/-- `on_message` after the bot-author early return, for a guild message:
if the user has a counter entry under the guild, bump the channel's count;
otherwise the message is dropped. -/
def on_message (g u c : Nat) (s : BotState) : BotState :=
  match lookupC (g, u) s.counters with
  | some m => { s with counters := setC (g, u) (incr c m) s.counters }
  | none => s

/-- The full `on_message` handler as an event: bot authors return immediately;
for everyone else the handler reads `message.guild.id`, which raises
(`AttributeError` on `None`) when the message carries no guild — modelled as
`none`. -/
def on_message_event (authorBot : Bool) (guild : Option Nat) (u c : Nat)
    (s : BotState) : Option BotState :=
  if authorBot then some s
  else
    match guild with
    | none => none
    | some g => some (on_message g u c s)

/-- `{ str(cid): cnt for cid, cnt in counts.items() }`. -/
def stringifyCounts (m : ChanCounts) : List (String × Nat) :=
  m.map (fun p => (Nat.repr p.1, p.2))

/-- `on_member_remove`: pop the counter entry (default empty), stringify the
channel keys, and patch the most recently opened open row for `(g, u)` with
`leave_time = t` and the collected counts; zero rows are affected when no open
row exists. -/
def on_member_remove (g u t : Nat) (s : BotState) : BotState :=
  let counts := (lookupC (g, u) s.counters).getD []
  let cc := stringifyCounts counts
  { counters := eraseC (g, u) s.counters,
    sessions :=
      match bestOpenIdx g u s.sessions with
      | none => s.sessions
      | some p => closeAt t cc p.1 s.sessions }

/-- The row returned by `select * … order("join_time", desc=True).limit(1)`:
the row for `(g, u)` (open or closed) with maximal `join_time`. -/
def latestRow (g u : Nat) : List SessionRow → Option SessionRow
  | [] => none
  | r :: rs =>
    match latestRow g u rs, r.guild_id == g && r.user_id == u with
    | rest, false => rest
    | none, true => some r
    | some r', true => if r.join_time < r'.join_time then some r' else some r

/-- The messages sent by the `stats` command.  `mention` stands for
`member.mention`; `chanName` models `ctx.guild.get_channel(int(cid))` followed
by `.name` (an external framework call), returning `none` when the channel no
longer resolves. -/
def statsOutput (g uid : Nat) (mention : String) (chanName : String → Option String)
    (rows : List SessionRow) : List String :=
  match latestRow g uid rows with
  | none => ["No sessions found for " ++ mention ++ "."]
  | some ses =>
    let jc := Nat.repr ses.join_time
    let lt :=
      match ses.leave_time with
      | some t => Nat.repr t
      | none => "still here"
    let counts := ses.channel_counts.getD []
    let head :=
      ["**Session for " ++ mention ++ ":**",
       "• Joined: `" ++ jc ++ "`",
       "• Left:   `" ++ lt ++ "`",
       "",
       "**Message counts:**"]
    let body :=
      if counts.isEmpty then ["• No messages recorded."]
      else
        counts.map (fun p =>
          let nm :=
            match chanName p.1 with
            | some n => "#" ++ n
            | none => p.1
          "• " ++ nm ++ ": " ++ Nat.repr p.2)
    [String.intercalate "\n" (head ++ body)]

/-- The distinct user ids among open rows of the guild
(`{row["user_id"] for row in res.data}` — a Python set; the model picks a
concrete duplicate-free enumeration). -/
def activeUsers (g : Nat) (rows : List SessionRow) : List Nat :=
  ((rows.filter (fun r => r.guild_id == g && r.leave_time == none)).map
    (fun r => r.user_id)).dedup

/-- Display handle when the user is still a member, the raw identifier in
backticks otherwise (`m.mention if m else` the backtick-quoted id).  `member`
models `ctx.guild.get_member(uid)` followed by `.mention`. -/
def mentionOrId (member : Nat → Option String) (uid : Nat) : String :=
  match member uid with
  | some m => m
  | none => "`" ++ Nat.repr uid ++ "`"

/-- The messages sent by the `active` command. -/
def activeOutput (g : Nat) (member : Nat → Option String) (rows : List SessionRow) :
    List String :=
  let users := activeUsers g rows
  if users.isEmpty then ["No active sessions right now."]
  else
    ["**Active sessions:** " ++ String.intercalate ", " (users.map (mentionOrId member))]

/-- The `stats` command as a state transformer: it only issues a select, so the
state component is returned unchanged, paired with the messages sent. -/
def stats_cmd (g uid : Nat) (mention : String) (chanName : String → Option String)
    (s : BotState) : BotState × List String :=
  (s, statsOutput g uid mention chanName s.sessions)

/-- The `active` command as a state transformer: read-only select plus the
messages sent. -/
def active_cmd (g : Nat) (member : Nat → Option String) (s : BotState) :
    BotState × List String :=
  (s, activeOutput g member s.sessions)

/-! ## Per-user event traces

The modelled per-user event sequence: `Bootstrap` (only at process start)
and/or `OnJoin` opens a session, `OnMessage` events occur while it is open,
`OnLeave` closes it; with no restart mid-session, `Bootstrap` can only be the
first event of the trace. -/

/-- A lifecycle signal for one fixed `(guild, user)` pair. -/
inductive SEvent where
  | bootstrap (t : Nat)
  | join (t : Nat)
  | msg (c : Nat)
  | leave (t : Nat)
deriving DecidableEq, Repr

/-- Dispatch one event to the corresponding handler. -/
def stepEv (g u : Nat) (s : BotState) : SEvent → BotState
  | .bootstrap t => bootstrap_member g u t s
  | .join t => on_member_join g u t s
  | .msg c => on_message g u c s
  | .leave t => on_member_remove g u t s

/-- Run a trace of events from a state. -/
def runEv (g u : Nat) (s : BotState) (es : List SEvent) : BotState :=
  es.foldl (stepEv g u) s

/-- Session phases of the per-user automaton. -/
inductive Phase where
  | start | opened | closed
deriving DecidableEq, Repr

/-- Which events are allowed in which phase: bootstrap or join opens the first
session, messages happen while open, leave closes, and only a plain join can
reopen (no restart mid-session, so no second bootstrap). -/
def stepPhase : Phase → SEvent → Option Phase
  | .start, .bootstrap _ => some .opened
  | .start, .join _ => some .opened
  | .opened, .msg _ => some .opened
  | .opened, .leave _ => some .closed
  | .closed, .join _ => some .opened
  | _, _ => none

/-- Run the phase automaton over a trace. -/
def phaseRun : Phase → List SEvent → Option Phase
  | p, [] => some p
  | p, e :: es =>
    match stepPhase p e with
    | none => none
    | some p' => phaseRun p' es

/-- A trace allowed by the modelled event sequence. -/
def validTrace (es : List SEvent) : Bool :=
  (phaseRun Phase.start es).isSome

/-- The state at process start: no counters, no stored rows for the pair under
consideration. -/
def initState : BotState := ⟨[], []⟩

/-! ## Injectivity of the decimal printer `Nat.repr`

`str(channel_id)` maps distinct channel ids to distinct keys; we prove the
corresponding fact about `Nat.repr` by eliminating the fuel of
`Nat.toDigitsCore` and exhibiting a left inverse of the digit-string map. -/

/-- Fuel-free most-significant-first decimal digit list. -/
def natDigits (n : Nat) : List Char :=
  if h : n < 10 then [Nat.digitChar n]
  else natDigits (n / 10) ++ [Nat.digitChar (n % 10)]
termination_by n
decreasing_by exact Nat.div_lt_self (by omega) (by omega)

theorem toDigitsCore_eq_natDigits (fuel : Nat) :
    ∀ n ds, n < fuel → Nat.toDigitsCore 10 fuel n ds = natDigits n ++ ds := by
  induction fuel with
  | zero => intro n ds h; omega
  | succ fuel ih =>
    intro n ds h
    show (if n / 10 = 0 then Nat.digitChar (n % 10) :: ds
          else Nat.toDigitsCore 10 fuel (n / 10) (Nat.digitChar (n % 10) :: ds)) = _
    by_cases h10 : n / 10 = 0
    · have hn : n < 10 := (Nat.div_eq_zero_iff (by omega)).mp h10
      rw [if_pos h10, natDigits, dif_pos hn, Nat.mod_eq_of_lt hn]
      rfl
    · have hn : ¬ n < 10 := fun hlt => h10 ((Nat.div_eq_zero_iff (by omega)).mpr hlt)
      have hdiv : n / 10 < fuel := by
        have := Nat.div_lt_self (by omega : 0 < n) (by omega : 1 < 10)
        omega
      rw [if_neg h10, ih (n / 10) (Nat.digitChar (n % 10) :: ds) hdiv]
      conv_rhs => rw [natDigits, dif_neg hn]
      rw [List.append_assoc]
      rfl

theorem repr_eq_natDigits (n : Nat) : Nat.repr n = (natDigits n).asString := by
  show (Nat.toDigitsCore 10 (n + 1) n []).asString = _
  rw [toDigitsCore_eq_natDigits (n + 1) n [] (Nat.lt_succ_self n), List.append_nil]

/-- Left inverse of the digit-string map: standard positional parse. -/
def parseDigits (a : Nat) (l : List Char) : Nat :=
  l.foldl (fun acc c => acc * 10 + (c.toNat - 48)) a

theorem digitChar_val : ∀ d, d < 10 → (Nat.digitChar d).toNat - 48 = d := by decide

theorem parseDigits_natDigits (n : Nat) :
    ∀ a, parseDigits a (natDigits n) = a * 10 ^ (natDigits n).length + n := by
  induction n using Nat.strong_induction_on with
  | _ n ih =>
    intro a
    by_cases h : n < 10
    · rw [natDigits, dif_pos h]
      show a * 10 + ((Nat.digitChar n).toNat - 48) = a * 10 ^ 1 + n
      rw [digitChar_val n h, pow_one]
    · rw [natDigits, dif_neg h]
      have hlt : n / 10 < n := Nat.div_lt_self (by omega) (by omega)
      unfold parseDigits at *
      rw [List.foldl_append, ih (n / 10) hlt a]
      show (a * 10 ^ (natDigits (n / 10)).length + n / 10) * 10 +
          ((Nat.digitChar (n % 10)).toNat - 48) = _
      rw [digitChar_val (n % 10) (Nat.mod_lt n (by omega)), List.length_append,
        List.length_singleton, pow_succ]
      have := Nat.div_add_mod n 10
      ring_nf
      omega

theorem natDigits_injective : Function.Injective natDigits := by
  intro m n h
  have hm := parseDigits_natDigits m 0
  have hn := parseDigits_natDigits n 0
  rw [h] at hm
  simp only [Nat.zero_mul, Nat.zero_add] at hm hn
  rw [hm] at hn
  exact hn

theorem repr_injective : Function.Injective Nat.repr := by
  intro m n h
  rw [repr_eq_natDigits, repr_eq_natDigits] at h
  exact natDigits_injective (congrArg String.data h)

/-! ## Helper lemmas -/

theorem lookupC_setC_self (k : Nat × Nat) (v : ChanCounts) (cs : Counters) :
    lookupC k (setC k v cs) = some v := by
  induction cs with
  | nil => simp [setC, lookupC]
  | cons kv rest ih =>
    obtain ⟨k', v'⟩ := kv
    by_cases h : k' = k
    · simp [setC, h, lookupC]
    · simp [setC, h, lookupC, ih]

theorem setC_setC (k : Nat × Nat) (v w : ChanCounts) (cs : Counters) :
    setC k v (setC k w cs) = setC k v cs := by
  induction cs with
  | nil => simp [setC]
  | cons kv rest ih =>
    obtain ⟨k', v'⟩ := kv
    by_cases h : k' = k
    · simp [setC, h]
    · simp [setC, h, ih]

theorem isOpenFor_mk (g u t : Nat) : isOpenFor g u ⟨g, u, t, none, none⟩ = true := by
  simp [isOpenFor]

theorem isOpenFor_close (g u t : Nat) (cc : List (String × Nat)) (r : SessionRow) :
    isOpenFor g u { r with leave_time := some t, channel_counts := some cc } = false := by
  simp [isOpenFor]

theorem countOpen_append (g u : Nat) (l1 l2 : List SessionRow) :
    countOpen g u (l1 ++ l2) = countOpen g u l1 + countOpen g u l2 :=
  List.countP_append _ _ _

theorem countOpen_eq_zero_iff (g u : Nat) (rows : List SessionRow) :
    countOpen g u rows = 0 ↔ ∀ r ∈ rows, isOpenFor g u r = false := by
  simp [countOpen, List.countP_eq_zero]

theorem hasOpen_eq_false_iff (g u : Nat) (rows : List SessionRow) :
    hasOpen g u rows = false ↔ ∀ r ∈ rows, isOpenFor g u r = false := by
  simp [hasOpen, List.any_eq_false]

theorem bestOpenIdx_eq_none_iff (g u : Nat) (rows : List SessionRow) :
    bestOpenIdx g u rows = none ↔ ∀ r ∈ rows, isOpenFor g u r = false := by
  induction rows with
  | nil => simp [bestOpenIdx]
  | cons r rs ih =>
    cases h' : bestOpenIdx g u rs with
    | none =>
      cases hr : isOpenFor g u r with
      | false =>
        simp only [bestOpenIdx, h', hr, List.mem_cons]
        constructor
        · intro _ r' hmem
          rcases hmem with h1 | h2
          · rw [h1]; exact hr
          · exact (ih.mp h') r' h2
        · intro _; trivial
      | true =>
        simp only [bestOpenIdx, h', hr]
        constructor
        · intro h0; exact Option.noConfusion h0
        · intro hall
          have := hall r (List.mem_cons_self r rs)
          rw [hr] at this; exact Bool.noConfusion this
    | some p =>
      obtain ⟨j, t⟩ := p
      cases hr : isOpenFor g u r with
      | false =>
        simp only [bestOpenIdx, h', hr, List.mem_cons]
        constructor
        · intro h0; exact Option.noConfusion h0
        · intro hall
          have hnone : bestOpenIdx g u rs = none :=
            ih.mpr (fun r' hm => hall r' (Or.inr hm))
          rw [h'] at hnone; exact Option.noConfusion hnone
      | true =>
        simp only [bestOpenIdx, h', hr]
        constructor
        · intro h0
          by_cases hlt : r.join_time < t
          · rw [if_pos hlt] at h0; exact Option.noConfusion h0
          · rw [if_neg hlt] at h0; exact Option.noConfusion h0
        · intro hall
          have := hall r (List.mem_cons_self r rs)
          rw [hr] at this; exact Bool.noConfusion this

theorem countOpen_closeAt (g u : Nat) (t' : Nat) (cc : List (String × Nat)) :
    ∀ (rows : List SessionRow) (i t : Nat), bestOpenIdx g u rows = some (i, t) →
      countOpen g u (closeAt t' cc i rows) + 1 = countOpen g u rows := by
  intro rows
  induction rows with
  | nil => intro i t h; exact Option.noConfusion h
  | cons r rs ih =>
    intro i t h
    cases h' : bestOpenIdx g u rs with
    | none =>
      cases hr : isOpenFor g u r with
      | false =>
        simp only [bestOpenIdx, h', hr] at h
        exact Option.noConfusion h
      | true =>
        simp only [bestOpenIdx, h', hr, Option.some.injEq, Prod.mk.injEq] at h
        obtain ⟨hi, _⟩ := h
        subst hi
        simp [closeAt, countOpen, List.countP_cons, isOpenFor_close, hr]
    | some p =>
      obtain ⟨j, tj⟩ := p
      cases hr : isOpenFor g u r with
      | false =>
        simp only [bestOpenIdx, h', hr, Option.some.injEq, Prod.mk.injEq] at h
        obtain ⟨hi, _⟩ := h
        subst hi
        have hrec := ih j tj h'
        simp only [closeAt, countOpen, List.countP_cons] at *
        omega
      | true =>
        simp only [bestOpenIdx, h', hr] at h
        by_cases hlt : r.join_time < tj
        · rw [if_pos hlt] at h
          simp only [Option.some.injEq, Prod.mk.injEq] at h
          obtain ⟨hi, _⟩ := h
          subst hi
          have hrec := ih j tj h'
          simp only [closeAt, countOpen, List.countP_cons] at *
          omega
        · rw [if_neg hlt] at h
          simp only [Option.some.injEq, Prod.mk.injEq] at h
          obtain ⟨hi, _⟩ := h
          subst hi
          simp [closeAt, countOpen, List.countP_cons, isOpenFor_close, hr]

theorem on_message_sessions (g u c : Nat) (s : BotState) :
    (on_message g u c s).sessions = s.sessions := by
  cases h : lookupC (g, u) s.counters <;> simp [on_message, h]

theorem latestRow_eq_none (g u : Nat) (rows : List SessionRow)
    (h : ∀ r ∈ rows, ¬(r.guild_id = g ∧ r.user_id = u)) :
    latestRow g u rows = none := by
  induction rows with
  | nil => rfl
  | cons r rs ih =>
    have hr : (r.guild_id == g && r.user_id == u) = false := by
      have := h r (List.mem_cons_self r rs)
      cases hg : r.guild_id == g <;> cases hu : r.user_id == u <;> simp_all
    have hrec := ih (fun r' hmem => h r' (List.mem_cons_of_mem r hmem))
    simp only [latestRow, hrec, hr]

/-- The number of open rows the pair should have in each phase. -/
def phaseCount : Phase → Nat
  | .opened => 1
  | _ => 0

theorem on_member_join_sessions (g u t : Nat) (s : BotState) :
    (on_member_join g u t s).sessions = s.sessions ++ [⟨g, u, t, none, none⟩] := rfl

theorem bootstrap_member_sessions_closed (g u t : Nat) (s : BotState)
    (h : hasOpen g u s.sessions = false) :
    (bootstrap_member g u t s).sessions = s.sessions ++ [⟨g, u, t, none, none⟩] := by
  simp [bootstrap_member, h]

theorem countOpen_snoc_open (g u t : Nat) (rows : List SessionRow) :
    countOpen g u (rows ++ [⟨g, u, t, none, none⟩]) = countOpen g u rows + 1 := by
  rw [countOpen_append]
  simp [countOpen, List.countP_cons, isOpenFor_mk]

theorem on_member_remove_sessions (g u t : Nat) (s : BotState) (i tj : Nat)
    (hb : bestOpenIdx g u s.sessions = some (i, tj)) :
    (on_member_remove g u t s).sessions =
      closeAt t (stringifyCounts ((lookupC (g, u) s.counters).getD [])) i s.sessions := by
  simp [on_member_remove, hb]

theorem stepEv_inv (g u : Nat) (p q : Phase) (e : SEvent) (s : BotState)
    (hstep : stepPhase p e = some q)
    (hcnt : countOpen g u s.sessions = phaseCount p) :
    countOpen g u (stepEv g u s e).sessions = phaseCount q := by
  cases p <;> cases e <;> simp only [stepPhase] at hstep <;>
    try exact Option.noConfusion hstep
  case start.bootstrap t =>
    injection hstep with hq; subst hq
    have hz : countOpen g u s.sessions = 0 := hcnt
    have hop : hasOpen g u s.sessions = false :=
      (hasOpen_eq_false_iff g u s.sessions).mpr ((countOpen_eq_zero_iff g u s.sessions).mp hz)
    show countOpen g u (bootstrap_member g u t s).sessions = 1
    rw [bootstrap_member_sessions_closed g u t s hop, countOpen_snoc_open, hz]
  case start.join t =>
    injection hstep with hq; subst hq
    have hz : countOpen g u s.sessions = 0 := hcnt
    show countOpen g u (on_member_join g u t s).sessions = 1
    rw [on_member_join_sessions, countOpen_snoc_open, hz]
  case opened.msg c =>
    injection hstep with hq; subst hq
    show countOpen g u (on_message g u c s).sessions = 1
    rw [on_message_sessions g u c s]
    exact hcnt
  case opened.leave t =>
    injection hstep with hq; subst hq
    have h1 : countOpen g u s.sessions = 1 := hcnt
    show countOpen g u (on_member_remove g u t s).sessions = 0
    cases hb : bestOpenIdx g u s.sessions with
    | none =>
      have h0 : countOpen g u s.sessions = 0 :=
        (countOpen_eq_zero_iff g u s.sessions).mpr ((bestOpenIdx_eq_none_iff g u s.sessions).mp hb)
      omega
    | some ip =>
      obtain ⟨i, tj⟩ := ip
      have hclose := countOpen_closeAt g u t
        (stringifyCounts ((lookupC (g, u) s.counters).getD [])) s.sessions i tj hb
      rw [on_member_remove_sessions g u t s i tj hb]
      omega
  case closed.join t =>
    injection hstep with hq; subst hq
    have hz : countOpen g u s.sessions = 0 := hcnt
    show countOpen g u (on_member_join g u t s).sessions = 1
    rw [on_member_join_sessions, countOpen_snoc_open, hz]

theorem runEv_inv (g u : Nat) :
    ∀ (es : List SEvent) (p q : Phase) (s : BotState), phaseRun p es = some q →
      countOpen g u s.sessions = phaseCount p →
      countOpen g u (runEv g u s es).sessions = phaseCount q := by
  intro es
  induction es with
  | nil =>
    intro p q s hrun hcnt
    simp only [phaseRun, Option.some.injEq] at hrun
    subst hrun
    exact hcnt
  | cons e es ih =>
    intro p q s hrun hcnt
    simp only [phaseRun] at hrun
    cases hstep : stepPhase p e with
    | none => rw [hstep] at hrun; exact Option.noConfusion hrun
    | some p' =>
      rw [hstep] at hrun
      have h1 := stepEv_inv g u p p' e s hstep hcnt
      have h2 := ih p' q (stepEv g u s e) hrun h1
      simpa [runEv, List.foldl_cons] using h2

/-! ## The claims -/

/-- **C1.**  For every `(guild_id, user_id)` pair and every state reachable by
the modelled per-user event sequence (Bootstrap and/or OnJoin, then OnMessage
events, then OnLeave), with no restart mid-session, at most one Session row
for that pair has `leave_time = null`. -/
theorem at_most_one_open_session (g u : Nat) (es : List SEvent)
    (h : validTrace es = true) :
    countOpen g u (runEv g u initState es).sessions ≤ 1 := by
  have h' : (phaseRun Phase.start es).isSome = true := h
  obtain ⟨q, hq⟩ := Option.isSome_iff_exists.mp h'
  have h0 : countOpen g u initState.sessions = phaseCount Phase.start := rfl
  have hfin := runEv_inv g u es Phase.start q initState hq h0
  rw [hfin]
  cases q <;> decide

/-- Witness for C1: a concrete valid trace (bootstrap, a message, a leave and a
re-join) leaves at most one open row. -/
theorem at_most_one_open_session_witness :
    validTrace [SEvent.bootstrap 0, SEvent.msg 5, SEvent.leave 3, SEvent.join 4] = true ∧
    countOpen 1 2 (runEv 1 2 initState
        [SEvent.bootstrap 0, SEvent.msg 5, SEvent.leave 3, SEvent.join 4]).sessions ≤ 1 :=
  ⟨by decide, at_most_one_open_session 1 2 _ (by decide)⟩

/-- **C3.**  OnJoin followed immediately by OnLeave with zero intervening
OnMessage events produces a closed Session row whose `channel_counts` is the
empty mapping. -/
theorem join_then_leave_empty_counts (g u T0 T1 : Nat) :
    (runEv g u initState [SEvent.join T0, SEvent.leave T1]).sessions
      = [⟨g, u, T0, some T1, some []⟩] := by
  simp [runEv, stepEv, on_member_join, on_member_remove, initState, lookupC, setC,
    bestOpenIdx, isOpenFor, closeAt, stringifyCounts, eraseC]

/-- When the store has an open row for the pair, a bootstrap only resets the
counter entry. -/
theorem bootstrap_member_of_open (g u t : Nat) (s : BotState)
    (h : hasOpen g u s.sessions = true) :
    bootstrap_member g u t s = ⟨setC (g, u) [] s.counters, s.sessions⟩ := by
  simp [bootstrap_member, h]

/-- **C4.**  Bootstrap is idempotent: starting from a store satisfying the
at-most-one-open-session invariant, running the per-member bootstrap twice in a
row with no intervening join or leave leaves exactly one open row for the pair,
and the second run changes nothing (it finds the existing open session and
inserts nothing). -/
theorem bootstrap_idempotent (g u t1 t2 : Nat) (s : BotState)
    (h : countOpen g u s.sessions ≤ 1) :
    bootstrap_member g u t2 (bootstrap_member g u t1 s) = bootstrap_member g u t1 s ∧
    countOpen g u (bootstrap_member g u t2 (bootstrap_member g u t1 s)).sessions = 1 := by
  have hopen1 : hasOpen g u (bootstrap_member g u t1 s).sessions = true := by
    cases hop : hasOpen g u s.sessions with
    | true => simp [bootstrap_member, hop]
    | false =>
      have hs := bootstrap_member_sessions_closed g u t1 s hop
      rw [hs]
      simp [hasOpen, List.any_append, isOpenFor_mk]
  have heq : bootstrap_member g u t2 (bootstrap_member g u t1 s)
      = bootstrap_member g u t1 s := by
    rw [bootstrap_member_of_open g u t2 _ hopen1]
    simp [bootstrap_member, setC_setC]
  have hcount1 : countOpen g u (bootstrap_member g u t1 s).sessions = 1 := by
    cases hop : hasOpen g u s.sessions with
    | false =>
      have hz : countOpen g u s.sessions = 0 :=
        (countOpen_eq_zero_iff g u s.sessions).mpr ((hasOpen_eq_false_iff g u s.sessions).mp hop)
      rw [bootstrap_member_sessions_closed g u t1 s hop, countOpen_snoc_open, hz]
    | true =>
      obtain ⟨r, hmem, hr⟩ := List.any_eq_true.mp hop
      have hpos : 0 < countOpen g u s.sessions := by
        rw [countOpen]
        exact List.countP_pos_iff.mpr ⟨r, hmem, hr⟩
      have hs : (bootstrap_member g u t1 s).sessions = s.sessions := by
        simp [bootstrap_member, hop]
      rw [hs]
      omega
  exact ⟨heq, by rw [heq]; exact hcount1⟩

/-- Witness for C4 at a concrete state. -/
theorem bootstrap_idempotent_witness :
    bootstrap_member 1 2 7 (bootstrap_member 1 2 3 initState)
        = bootstrap_member 1 2 3 initState ∧
    countOpen 1 2 (bootstrap_member 1 2 7 (bootstrap_member 1 2 3 initState)).sessions = 1 :=
  bootstrap_idempotent 1 2 3 7 initState (by decide)

/-- **C5.**  A non-bot message from a user with no Activity Counter entry for
the guild leaves the whole state (Session Store and Activity Counter)
unchanged: the message is dropped, nothing is created. -/
theorem on_message_no_entry (g u c : Nat) (s : BotState)
    (h : lookupC (g, u) s.counters = none) :
    on_message g u c s = s := by
  simp [on_message, h]

/-- Witness for C5: a state with an entry for a different user. -/
theorem on_message_no_entry_witness :
    lookupC (1, 2) (BotState.mk [((1, 3), [(9, 2)])] []).counters = none ∧
    on_message 1 2 9 (BotState.mk [((1, 3), [(9, 2)])] [])
      = BotState.mk [((1, 3), [(9, 2)])] [] :=
  ⟨by decide, on_message_no_entry 1 2 9 _ (by decide)⟩

/-- **C6.**  When no open Session row exists for the pair, OnLeave's
conditional update affects zero rows: no Session row is modified (the handler
is a total function, so no error is raised). -/
theorem on_leave_no_open_row (g u t : Nat) (s : BotState)
    (h : ∀ r ∈ s.sessions, isOpenFor g u r = false) :
    (on_member_remove g u t s).sessions = s.sessions := by
  have hb : bestOpenIdx g u s.sessions = none := (bestOpenIdx_eq_none_iff g u s.sessions).mpr h
  simp [on_member_remove, hb]

/-- Witness for C6: a store holding a closed row for the pair and an open row
of another guild. -/
theorem on_leave_no_open_row_witness :
    (∀ r ∈ (BotState.mk [] [⟨1, 2, 0, some 5, some []⟩, ⟨3, 2, 6, none, none⟩]).sessions,
        isOpenFor 1 2 r = false) ∧
    (on_member_remove 1 2 9 (BotState.mk [] [⟨1, 2, 0, some 5, some []⟩,
        ⟨3, 2, 6, none, none⟩])).sessions
      = [⟨1, 2, 0, some 5, some []⟩, ⟨3, 2, 6, none, none⟩] :=
  ⟨by decide, on_leave_no_open_row 1 2 9 _ (by decide)⟩

/-- **C7.**  For a user with no Session rows at all in the guild, the `stats`
command sends exactly the message "No sessions found for <user>." and nothing
else. -/
theorem stats_no_sessions (g uid : Nat) (mention : String)
    (chanName : String → Option String) (rows : List SessionRow)
    (h : ∀ r ∈ rows, ¬(r.guild_id = g ∧ r.user_id = uid)) :
    statsOutput g uid mention chanName rows
      = ["No sessions found for " ++ mention ++ "."] := by
  have hl := latestRow_eq_none g uid rows h
  simp [statsOutput, hl]

/-- Witness for C7: a store holding only another user's row. -/
theorem stats_no_sessions_witness :
    (∀ r ∈ [(⟨1, 3, 0, none, none⟩ : SessionRow)], ¬(r.guild_id = 1 ∧ r.user_id = 2)) ∧
    statsOutput 1 2 "@alice" (fun _ => none) [⟨1, 3, 0, none, none⟩]
      = ["No sessions found for @alice."] :=
  ⟨by decide, stats_no_sessions 1 2 "@alice" (fun _ => none) _ (by decide)⟩

/-- **C9.**  The `stats` and `active` commands are read-only: neither mutates
the Activity Counter or any Session row — the state they return is the state
they were given. -/
theorem commands_read_only (g uid : Nat) (mention : String)
    (chanName : String → Option String) (member : Nat → Option String) (s : BotState) :
    (stats_cmd g uid mention chanName s).1 = s ∧ (active_cmd g member s).1 = s :=
  ⟨rfl, rfl⟩

/-- **C10.**  A non-bot message that carries no guild (a direct message) makes
`on_message` raise while reading `message.guild.id` (modelled as `none`),
instead of being silently dropped; a bot-authored message returns with the
state untouched. -/
theorem dm_message_raises (u c : Nat) (s s' : BotState) :
    on_message_event false none u c s = none ∧
    on_message_event true none u c s' = some s' :=
  ⟨rfl, rfl⟩

/-- **C8.**  The `active` command reports the set of distinct users with open
sessions in the guild: the reported list is duplicate-free, contains exactly
the users owning an open row (even if several open rows exist for one user),
each rendered by `mentionOrId`; when no user has an open session the command
sends exactly "No active sessions right now." and no mention list. -/
theorem active_command_correct (g : Nat) (member : Nat → Option String)
    (rows : List SessionRow) :
    (activeUsers g rows).Nodup
    ∧ (∀ uid, uid ∈ activeUsers g rows ↔
        ∃ r ∈ rows, r.guild_id = g ∧ r.leave_time = none ∧ r.user_id = uid)
    ∧ (activeUsers g rows = [] →
        activeOutput g member rows = ["No active sessions right now."])
    ∧ (activeUsers g rows ≠ [] →
        activeOutput g member rows =
          ["**Active sessions:** " ++
            String.intercalate ", " ((activeUsers g rows).map (mentionOrId member))]) := by
  refine ⟨List.nodup_dedup _, ?_, ?_, ?_⟩
  · intro uid
    constructor
    · intro hu
      rw [activeUsers, List.mem_dedup] at hu
      obtain ⟨r, hr, hru⟩ := List.mem_map.mp hu
      obtain ⟨hmem, hp⟩ := List.mem_filter.mp hr
      simp only [Bool.and_eq_true, beq_iff_eq] at hp
      exact ⟨r, hmem, hp.1, hp.2, hru⟩
    · rintro ⟨r, hmem, hg, hl, hu⟩
      rw [activeUsers, List.mem_dedup]
      refine List.mem_map.mpr ⟨r, List.mem_filter.mpr ⟨hmem, ?_⟩, hu⟩
      simp [hg, hl]
  · intro h
    simp [activeOutput, h]
  · intro h
    have hne : (activeUsers g rows).isEmpty = false := by
      cases hu : activeUsers g rows with
      | nil => exact absurd hu h
      | cons x l => rfl
    simp [activeOutput, hne]

/-- Witness for C8: with zero open sessions the exact empty-state message is
sent. -/
theorem active_command_correct_witness :
    activeOutput 1 (fun _ => none) [] = ["No active sessions right now."] :=
  (active_command_correct 1 (fun _ => none) []).2.2.1 rfl

/-- Iterated `incr`: the counter entry after `a` messages in channel `c`. -/
def incrN (c : Nat) : Nat → ChanCounts → ChanCounts
  | 0, m => m
  | a + 1, m => incrN c a (incr c m)

theorem incrN_succ (c a : Nat) (m : ChanCounts) :
    incrN c (a + 1) m = incrN c a (incr c m) := rfl

theorem runEv_append (g u : Nat) (s : BotState) (l1 l2 : List SEvent) :
    runEv g u s (l1 ++ l2) = runEv g u (runEv g u s l1) l2 := by
  simp [runEv, List.foldl_append]

theorem run_msgs (g u c : Nat) :
    ∀ (a : Nat) (m : ChanCounts) (rows : List SessionRow),
      runEv g u ⟨[((g, u), m)], rows⟩ (List.replicate a (SEvent.msg c))
        = ⟨[((g, u), incrN c a m)], rows⟩ := by
  intro a
  induction a with
  | zero => intro m rows; rfl
  | succ a ih =>
    intro m rows
    have h1 : stepEv g u ⟨[((g, u), m)], rows⟩ (SEvent.msg c)
        = ⟨[((g, u), incr c m)], rows⟩ := by
      simp [stepEv, on_message, lookupC, setC]
    show runEv g u (stepEv g u ⟨[((g, u), m)], rows⟩ (SEvent.msg c))
        (List.replicate a (SEvent.msg c)) = _
    rw [h1, ih (incr c m) rows, incrN_succ]

theorem incrN_cons_ne (c k : Nat) (h : k ≠ c) :
    ∀ (a v : Nat) (m : ChanCounts),
      incrN c a ((k, v) :: m) = (k, v) :: incrN c a m := by
  intro a
  induction a with
  | zero => intro v m; rfl
  | succ a ih =>
    intro v m
    show incrN c a (incr c ((k, v) :: m)) = _
    have hstep : incr c ((k, v) :: m) = (k, v) :: incr c m := by simp [incr, h]
    rw [hstep, ih v (incr c m), incrN_succ]

theorem incrN_single (c : Nat) :
    ∀ (a v : Nat), incrN c a [(c, v)] = [(c, v + a)] := by
  intro a
  induction a with
  | zero => intro v; rfl
  | succ a ih =>
    intro v
    show incrN c a (incr c [(c, v)]) = _
    have hstep : incr c [(c, v)] = [(c, v + 1)] := by simp [incr]
    rw [hstep, ih (v + 1)]
    have harith : v + 1 + a = v + (a + 1) := by omega
    rw [harith]

theorem incrN_nil (c a : Nat) :
    incrN c a [] = if a = 0 then [] else [(c, a)] := by
  cases a with
  | zero => rfl
  | succ a =>
    show incrN c a (incr c []) = _
    have hstep : incr c ([] : ChanCounts) = [(c, 1)] := rfl
    rw [hstep, incrN_single c a 1]
    simp [Nat.add_comm]

theorem join_step (g u T0 : Nat) :
    runEv g u initState [SEvent.join T0] = ⟨[((g, u), [])], [⟨g, u, T0, none, none⟩]⟩ := by
  simp [runEv, stepEv, on_member_join, initState, setC]

theorem leave_step (g u T0 T1 : Nat) (m : ChanCounts) :
    stepEv g u ⟨[((g, u), m)], [⟨g, u, T0, none, none⟩]⟩ (SEvent.leave T1)
      = ⟨[], [⟨g, u, T0, some T1, some (stringifyCounts m)⟩]⟩ := by
  simp [stepEv, on_member_remove, lookupC, eraseC, bestOpenIdx, isOpenFor, closeAt]

/-- **C2.**  OnJoin at `T0`, then `a` messages in channel `c1` and `b` in
channel `c2`, then OnLeave at `T1`, produces exactly one closed row
`{guild_id, user_id, join_time = T0, leave_time = T1}` whose `channel_counts`
records `a` under the canonical string key of `c1` and `b` under that of `c2`
and nothing else (a zero count is recorded as an absent key), and afterwards
the Activity Counter no longer contains an entry for the user under the
guild. -/
theorem join_messages_leave (g u c1 c2 T0 T1 a b : Nat) (hne : c1 ≠ c2) :
    ∃ cc : List (String × Nat),
      runEv g u initState
        ([SEvent.join T0] ++ List.replicate a (SEvent.msg c1)
          ++ List.replicate b (SEvent.msg c2) ++ [SEvent.leave T1])
        = ⟨[], [⟨g, u, T0, some T1, some cc⟩]⟩
      ∧ (lookupS (Nat.repr c1) cc).getD 0 = a
      ∧ (lookupS (Nat.repr c2) cc).getD 0 = b
      ∧ ∀ k, k ≠ Nat.repr c1 → k ≠ Nat.repr c2 → lookupS k cc = none := by
  have hrepr : Nat.repr c1 ≠ Nat.repr c2 := fun hh => hne (repr_injective hh)
  have hshape : stringifyCounts (incrN c2 b (incrN c1 a []))
      = (if a = 0 then [] else [(Nat.repr c1, a)])
        ++ (if b = 0 then [] else [(Nat.repr c2, b)]) := by
    rw [incrN_nil c1 a]
    rcases a with _ | a'
    · rw [if_pos rfl, if_pos rfl, incrN_nil c2 b]
      rcases b with _ | b' <;> simp [stringifyCounts]
    · rw [if_neg (Nat.succ_ne_zero a'), if_neg (Nat.succ_ne_zero a'),
        incrN_cons_ne c2 c1 hne b (a' + 1) [], incrN_nil c2 b]
      rcases b with _ | b' <;> simp [stringifyCounts]
  refine ⟨stringifyCounts (incrN c2 b (incrN c1 a [])), ?_, ?_, ?_, ?_⟩
  · rw [runEv_append, runEv_append, runEv_append, join_step, run_msgs, run_msgs]
    exact leave_step g u T0 T1 _
  · rw [hshape]
    rcases a with _ | a' <;> rcases b with _ | b' <;>
      simp [lookupS, hrepr, Ne.symm hrepr]
  · rw [hshape]
    rcases a with _ | a' <;> rcases b with _ | b' <;>
      simp [lookupS, hrepr, Ne.symm hrepr]
  · intro k hk1 hk2
    rw [hshape]
    rcases a with _ | a' <;> rcases b with _ | b' <;>
      simp [lookupS, Ne.symm hk1, Ne.symm hk2]

/-- Witness for C2: three messages in one channel and two in another. -/
theorem join_messages_leave_witness :
    ∃ cc : List (String × Nat),
      runEv 5 6 initState
        ([SEvent.join 10] ++ List.replicate 3 (SEvent.msg 1)
          ++ List.replicate 2 (SEvent.msg 2) ++ [SEvent.leave 11])
        = ⟨[], [⟨5, 6, 10, some 11, some cc⟩]⟩
      ∧ (lookupS (Nat.repr 1) cc).getD 0 = 3
      ∧ (lookupS (Nat.repr 2) cc).getD 0 = 2
      ∧ ∀ k, k ≠ Nat.repr 1 → k ≠ Nat.repr 2 → lookupS k cc = none :=
  join_messages_leave 5 6 1 2 10 11 3 2 (by decide)

end SessionScribe
